import Mathlib

/-!
Verification development for the usbd-ccid CCID pipe.

The definitions below are a shallow embedding of the Rust sources
(src/pipe.rs, src/types/packet.rs).  Byte buffers are `List Nat` whose
elements are byte values; machine integers are `Nat` with explicit
`% 256` (resp. `% 2 ^ 32`) where the source performs a narrowing cast.
Fallible operations return `Option`; a reached source panic site is
recorded in the `panicked` flag of the pipe state.  Ghost fields
(`wire`, `emitted`, `parse_log`, `last_happy`, `zlp_dropped`,
`panicked`) are pure history/observation variables: no source field
corresponds to them and no definition branches on them.
-/

namespace Ccid

/-- Modelled from the spec: `constants.rs` is not among the provided
sources.  The CCID header length in bytes (spec section 3). -/
def CCID_HEADER_LEN : Nat := 10

/-- Modelled from the spec: `constants.rs` is not among the provided
sources.  The USB bulk max packet size, "typically 64" (spec section 3). -/
def PACKET_SIZE : Nat := 64

/-- Modelled from the spec: `constants.rs` is not among the provided
sources.  Capacity of the reassembly buffer; the spec requires only
`MAX_MSG_LENGTH >= PACKET_SIZE` (spec section 3), matching the
compile-time assertion at the top of pipe.rs. -/
def MAX_MSG_LENGTH : Nat := 3072

/-- Modelled from the spec: the byte capacity `N` of the APDU
rendezvous channel (spec section 6); the pipe is generic over it. -/
def INTERCHANGE_CAPACITY : Nat := 3072

/-- The five-state transaction lifecycle of pipe.rs (`enum State`). -/
inductive State where
  | Idle
  | Receiving
  | Processing
  | ReadyToSend
  | Sending
  deriving DecidableEq

/-- `enum Chain` of packet.rs with its wire values (`toByte`). -/
inductive Chain where
  | BeginsAndEnds
  | Begins
  | Ends
  | Continues
  | ExpectingMore
  deriving DecidableEq

/-- Wire value of a `Chain` (the `repr(u8)` discriminants of packet.rs). -/
def Chain.toByte : Chain → Nat
  | .BeginsAndEnds => 0
  | .Begins => 1
  | .Ends => 2
  | .Continues => 3
  | .ExpectingMore => 0x10

/-- The six supported command kinds (`CommandType` / the `Command` enum
of packet.rs). -/
inductive CommandKind where
  | PowerOn
  | PowerOff
  | GetSlotStatus
  | GetParameters
  | XfrBlock
  | Abort
  deriving DecidableEq

/-- Outcome of `Command::try_from` (packet.rs): either a recognized
command kind, or one of the two `Error` variants. -/
inductive ParseResult where
  | ok (kind : CommandKind)
  | shortPacket
  | unknown (b : Nat)
  deriving DecidableEq

/-- `RawPacketExt::data_len` (packet.rs): little-endian u32 read from
bytes 1..5 of the CCID header.  The source indexes `self[1..5]`
unconditionally; every caller has checked `len >= CCID_HEADER_LEN`
first, so the out-of-range default 0 of `getD` is never taken there. -/
def data_len (pkt : List Nat) : Nat :=
  pkt.getD 1 0 + 256 * pkt.getD 2 0 + 65536 * pkt.getD 3 0 + 16777216 * pkt.getD 4 0

/-- `Command::try_from` (packet.rs): reject messages shorter than the
CCID header, then switch on byte 0.  The nonzero-slot case is noted in
the source (`wrong slot`) but deliberately takes no action. -/
def parse_command (ext : List Nat) : ParseResult :=
  if ext.length < CCID_HEADER_LEN then .shortPacket
  else
    match ext.getD 0 0 with
    | 0x62 => .ok .PowerOn
    | 0x63 => .ok .PowerOff
    | 0x65 => .ok .GetSlotStatus
    | 0x6c => .ok .GetParameters
    | 0x6f => .ok .XfrBlock
    | 0x72 => .ok .Abort
    | b => .unknown b

/-- `ChainedPacket::chain` (packet.rs): reads bytes 8..10 as a
little-endian u16 and maps the five accepted values.  On any other
value the source raises a panic ("invalid power select parameter");
`none` models that divergence.  Note the caller in pipe.rs matches on
a `Result` and would reset on an error value, but the function that
actually executes diverges first, so the caller's error arm is
unreachable. -/
def packet_chain (ext : List Nat) : Option Chain :=
  match ext.getD 8 0 + 256 * ext.getD 9 0 with
  | 0 => some .BeginsAndEnds
  | 1 => some .Begins
  | 2 => some .Ends
  | 3 => some .Continues
  | 0x10 => some .ExpectingMore
  | _ => none

/-- `PacketWithData::data` (packet.rs): clamp the declared length to
the buffer capacity, then slice `&self[CCID_HEADER_LEN..][..len]`.
The Rust slice panics when the buffer holds fewer than
`CCID_HEADER_LEN + len` bytes; `none` models that panic. -/
def packet_data (ext : List Nat) : Option (List Nat) :=
  let declared_len := data_len ext
  let len := min (MAX_MSG_LENGTH - CCID_HEADER_LEN) declared_len
  if CCID_HEADER_LEN ≤ ext.length ∧ CCID_HEADER_LEN + len ≤ ext.length then
    some ((ext.drop CCID_HEADER_LEN).take len)
  else none

/-- Little-endian encoding of a u32 (`u32::to_le_bytes`). -/
def toLE4 (n : Nat) : List Nat :=
  [n % 256, n / 256 % 256, n / 65536 % 256, n / 16777216 % 256]

/-- `From<DataBlock> for RawPacket` (packet.rs): a response data block
frame; byte 0 is 0x80, bytes 1..5 the little-endian payload length,
byte 5 the slot, byte 6 the sequence number, bytes 7..9 status/error,
byte 9 the chain parameter, then the payload. -/
def dataBlockRaw (seq : Nat) (chain : Chain) (data : List Nat) : List Nat :=
  0x80 :: toLE4 data.length ++ [0, seq, 0, 0, chain.toByte] ++ data

/-- `RawPacket::zeroed_until(CCID_HEADER_LEN)` with bytes 0 and 6 set
(pipe.rs `send_slot_status_ok`). -/
def slotStatusOkFrame (seq : Nat) : List Nat :=
  [0x81, 0, 0, 0, 0, 0, seq, 0, 0, 0]

/-- pipe.rs `send_slot_status_error`: bMessageType 0x6c, bStatus 1<<6,
bError the error code. -/
def slotStatusErrorFrame (seq err : Nat) : List Nat :=
  [0x6c, 0, 0, 0, 0, 0, seq, 1 <<< 6, err, 0]

/-- pipe.rs `send_wait_extension`: bStatus 2<<6 (time extension
requested), multiplier 1. -/
def waitExtensionFrame (seq : Nat) : List Nat :=
  [0x80, 0, 0, 0, 0, 0, seq, 2 <<< 6, 0x1, 0]

/-- pipe.rs `send_parameters`: the fixed 17-byte Parameters frame. -/
def parametersFrame (seq : Nat) : List Nat :=
  [0x82, 7, 0, 0, 0, 0, seq, 0, 0, 1, (0b0001 <<< 4) ||| 0b0001, 0x10, 0, 0x15, 0, 0xfe, 0]

/-- `heapless::Vec::push(..).ok()` with capacity `cap`: a push beyond
capacity is discarded. -/
def vecPush (cap : Nat) (v : List Nat) (b : Nat) : List Nat :=
  if v.length < cap then v ++ [b] else v

/-- `heapless::Vec::extend_from_slice(..).ok()` with capacity `cap`:
all-or-nothing append, a failed append is discarded. -/
def vecExtendDiscard (cap : Nat) (v d : List Nat) : List Nat :=
  if v.length + d.length ≤ cap then v ++ d else v

/-- `Pipe::construct_atr` (pipe.rs).  `k` is the historical-bytes
count encoded into T0; the `as u8` casts are modelled by `% 256`.
The source asserts `len <= 13`; the definition is total and the
theorems carry that bound as a hypothesis. -/
def construct_atr (card_issuers_data : Option (List Nat)) (signal_t_equals_0 : Bool) :
    List Nat :=
  let k := match card_issuers_data with
    | none => 0
    | some d => (2 + d.length % 256) % 256
  let atr := vecPush 32 [] 0x3B
  let atr := vecPush 32 atr (0x80 ||| k)
  let atr := if signal_t_equals_0 then vecPush 32 atr 0x80 else atr
  let atr := vecPush 32 atr 0x01
  let atr := match card_issuers_data with
    | none => atr
    | some d =>
        vecExtendDiscard 32 (vecPush 32 (vecPush 32 atr 0x80) (0x50 ||| d.length % 256)) d
  let checksum := (atr.drop 1).foldl (fun a b => a ^^^ b) 0
  vecPush 32 atr checksum

/-- `ExtPacket::extend_from_slice` (capacity `MAX_MSG_LENGTH`), with
the failure reported to the caller. -/
def ext_extend (v pkt : List Nat) : Option (List Nat) :=
  if v.length + pkt.length ≤ MAX_MSG_LENGTH then some (v ++ pkt) else none

/-- Modelled from the spec: the states of the `interchange` crate's
requester channel (spec sections 5 and 6): `Idle | Request |
Processing | Responded`. -/
inductive IchState where
  | Idle
  | Request
  | Processing
  | Responded
  deriving DecidableEq

/-- Modelled from the spec: the APDU rendezvous channel seen from the
requester side — a state plus one byte buffer in each direction (spec
section 6). -/
structure Interchange where
  st : IchState
  request : List Nat
  response : List Nat
  deriving DecidableEq

/-- Modelled from the spec: `cancel()` forcibly returns the channel to
Idle, discarding any in-flight work (spec section 5). -/
def Interchange.cancel (i : Interchange) : Interchange :=
  { i with st := .Idle }

/-- Modelled from the spec: `request(msg)` moves an Idle channel into
the Request state with the given buffer; otherwise it fails (the pipe
discards the failure with `.ok()`). -/
def Interchange.requestOp (i : Interchange) (msg : List Nat) : Interchange :=
  if i.st = .Idle then { i with st := .Request, request := msg } else i

/-- Modelled from the spec: `take_response()` consumes the reply of a
Responded channel, returning it to Idle; otherwise a no-op. -/
def Interchange.takeResponse (i : Interchange) : Interchange :=
  if i.st = .Responded then { i with st := .Idle } else i

/-- Modelled from the spec: `request_mut()` grants write access to the
request buffer while no request is in flight (Idle, or Request while
the request is being built); per the source comment in
`reset_interchange`, the interchange no longer needs to be in the
Request variant beforehand. -/
def Interchange.requestMutOk (i : Interchange) : Bool :=
  i.st = .Idle || i.st = .Request

/-- Modelled from the spec: `response()` reads (without consuming) the
reply of a Responded channel. -/
def Interchange.responseOk (i : Interchange) : Option (List Nat) :=
  if i.st = .Responded then some i.response else none

/-- Outcome of the non-blocking USB bulk-IN write
(`EndpointIn::write`), supplied by the environment. -/
inductive UsbWrite where
  | ok (n : Nat)
  | wouldBlock
  | error
  deriving DecidableEq

/-- The pipe state: the owned fields of `struct Pipe` (pipe.rs), minus
the USB endpoint handle (replaced by the per-call `UsbWrite` outcome)
and plus the ghost history fields listed at the top of the file. -/
structure PipeState where
  seq : Nat
  state : State
  sent : Nat
  outbox : Option (List Nat)
  ext_packet : List Nat
  packet_len : Nat
  receiving_long : Bool
  long_packet_missing : Nat
  in_chain : Nat
  started_processing : Bool
  atr : List Nat
  bulk_abort : Option Nat
  control_abort : Option Nat
  interchange : Interchange
  wire : List (List Nat)
  emitted : List (List Nat × Nat)
  parse_log : List (List Nat)
  last_happy : Option (CommandKind × Nat)
  zlp_dropped : Bool
  panicked : Bool
  deriving DecidableEq

/-- True when the outbox holds a pending zero-length packet (used only
by the `zlp_dropped` ghost updates). -/
def isPendingZlp : Option (List Nat) → Bool
  | some [] => true
  | _ => false

/-- `Pipe::reset_interchange` (pipe.rs): `request(empty).ok()`, then
`cancel().ok()`, then `take_response()`. -/
def reset_interchange (i : Interchange) : Interchange :=
  ((i.requestOp []).cancel).takeResponse

/-- `Pipe::reset_state` (pipe.rs): restore every mutable field to its
construction default and reset the interchange.  Ghost bookkeeping:
a pending zero-length packet dropped here is recorded. -/
def reset_state (p : PipeState) : PipeState :=
  { p with
    seq := 0
    state := .Idle
    sent := 0
    outbox := none
    packet_len := 0
    receiving_long := false
    long_packet_missing := 0
    in_chain := 0
    started_processing := false
    bulk_abort := none
    control_abort := none
    interchange := reset_interchange p.interchange
    zlp_dropped := p.zlp_dropped || isPendingZlp p.outbox }

/-- `Pipe::maybe_send_packet` (pipe.rs): attempt a non-blocking write
of the pending frame.  A fully written frame is appended to the ghost
`wire`; a maximally sized frame leaves a zero-length packet behind. -/
def maybe_send_packet (p : PipeState) (usb : UsbWrite) : PipeState :=
  match p.outbox with
  | none => p
  | some packet =>
    let needs_zlp := packet.length = PACKET_SIZE
    match usb with
    | .ok n =>
      if n = packet.length then
        { p with
          wire := p.wire ++ [packet]
          outbox := if needs_zlp then some [] else none }
      else reset_state p
    | .wouldBlock => p
    | .error => reset_state p

/-- `Pipe::send_packet_assuming_possible` (pipe.rs): drop to Idle if a
frame is already pending (the source logs "overwriting last
session.."), place the new frame in the outbox, then attempt the
fast-lane write.  Ghost bookkeeping: the created frame is logged in
`emitted` together with the current sequence number, and an
overwritten pending zero-length packet is recorded. -/
def send_packet_assuming_possible (p : PipeState) (packet : List Nat) (usb : UsbWrite) :
    PipeState :=
  let p :=
    if p.outbox.isSome then
      { p with state := .Idle, zlp_dropped := p.zlp_dropped || isPendingZlp p.outbox }
    else p
  maybe_send_packet
    { p with outbox := some packet, emitted := p.emitted ++ [(packet, p.seq)] } usb

/-- `Pipe::send_slot_status_ok` (pipe.rs). -/
def send_slot_status_ok (p : PipeState) (usb : UsbWrite) : PipeState :=
  send_packet_assuming_possible p (slotStatusOkFrame p.seq) usb

/-- `Pipe::send_slot_status_error` (pipe.rs). -/
def send_slot_status_error (p : PipeState) (err : Nat) (usb : UsbWrite) : PipeState :=
  send_packet_assuming_possible p (slotStatusErrorFrame p.seq err) usb

/-- `Pipe::send_parameters` (pipe.rs). -/
def send_parameters (p : PipeState) (usb : UsbWrite) : PipeState :=
  send_packet_assuming_possible p (parametersFrame p.seq) usb

/-- `Pipe::send_atr` (pipe.rs): the ATR as a `DataBlock(BeginsAndEnds)`. -/
def send_atr (p : PipeState) (usb : UsbWrite) : PipeState :=
  send_packet_assuming_possible p (dataBlockRaw p.seq .BeginsAndEnds p.atr) usb

/-- `Pipe::send_empty_datablock` (pipe.rs). -/
def send_empty_datablock (p : PipeState) (chain : Chain) (usb : UsbWrite) : PipeState :=
  send_packet_assuming_possible p (dataBlockRaw p.seq chain []) usb

/-- `Pipe::call_app` (pipe.rs): `send_request().expect(..)` — commit
the built request and enter Processing; a failed commit is a source
panic site. -/
def call_app (p : PipeState) : PipeState :=
  if p.interchange.st = .Request then
    { p with
      interchange := { p.interchange with st := .Processing }
      started_processing := true
      state := .Processing }
  else { p with panicked := true }

/-- Abort procedure `Pipe::abort` (pipe.rs): clear both rendezvous
halves, return to Idle, drop the outbox, cancel the interchange, and
answer with SlotStatusOk. -/
def pipe_abort (p : PipeState) (usb : UsbWrite) : PipeState :=
  let p :=
    { p with
      bulk_abort := none
      control_abort := none
      state := .Idle
      outbox := none
      zlp_dropped := p.zlp_dropped || isPendingZlp p.outbox
      started_processing := false
      receiving_long := false
      long_packet_missing := 0
      interchange := p.interchange.cancel }
  send_slot_status_ok p usb

/-- Chain tag and next state chosen by `Pipe::prime_outbox` from the
current state and the `more` flag; `none` is the source's "logically
impossible" arm. -/
def chainSel : State → Bool → Option (Chain × State)
  | .ReadyToSend, true => some (.Begins, .Sending)
  | .ReadyToSend, false => some (.BeginsAndEnds, .Idle)
  | .Sending, true => some (.Continues, .Sending)
  | .Sending, false => some (.Ends, .Idle)
  | _, _ => none

/-- `Pipe::prime_outbox` (pipe.rs): in ReadyToSend or Sending with an
empty outbox, cut the next chunk from the interchange response, pick
the chain tag and next state, build a DataBlock and attempt the
fast-lane write. -/
def prime_outbox (p : PipeState) (usb : UsbWrite) : PipeState :=
  if p.state ≠ .ReadyToSend ∧ p.state ≠ .Sending then p
  else if p.outbox.isSome then reset_state p
  else
    match p.interchange.responseOk with
    | none => reset_state p
    | some message =>
      let chunk_size := min (PACKET_SIZE - CCID_HEADER_LEN) (message.length - p.sent)
      let chunk := (message.drop p.sent).take chunk_size
      let sent := p.sent + chunk_size
      let more := decide (sent < message.length)
      match chainSel p.state more with
      | none => p
      | some (chain, st) =>
        let frame := dataBlockRaw p.seq chain chunk
        maybe_send_packet
          { p with
            sent := sent
            state := st
            outbox := some frame
            emitted := p.emitted ++ [(frame, p.seq)] } usb

/-- `Pipe::handle_transfer` (pipe.rs): the XfrBlock table over
(current state, inbound chain).  The inbound chain and payload are
read from the reassembled message; `packet_chain` diverging (see its
doc comment) makes the caller's error arms unreachable, so they are
modelled as the panic they really are, while a recognized-but-illegal
chain resets. -/
def handle_transfer (p : PipeState) (usb : UsbWrite) : PipeState :=
  match p.state with
  | .Idle =>
    match packet_chain p.ext_packet with
    | some .BeginsAndEnds =>
      let p := { p with interchange := reset_interchange p.interchange }
      if p.interchange.requestMutOk then
        let i := { p.interchange with st := IchState.Request }
        match packet_data p.ext_packet with
        | none => { p with panicked := true }
        | some d =>
          if d.length ≤ INTERCHANGE_CAPACITY then
            let p := call_app { p with interchange := { i with request := d } }
            { p with state := .Processing }
          else reset_state p
      else reset_state p
    | some .Begins =>
      let p := { p with interchange := reset_interchange p.interchange }
      if p.interchange.requestMutOk then
        let i := { p.interchange with st := IchState.Request }
        match packet_data p.ext_packet with
        | none => { p with panicked := true }
        | some d =>
          if d.length ≤ INTERCHANGE_CAPACITY then
            let p := { p with interchange := { i with request := d }, state := .Receiving }
            send_empty_datablock p .ExpectingMore usb
          else reset_state p
      else reset_state p
    | some _ => reset_state p
    | none => { p with panicked := true }
  | .Receiving =>
    match packet_chain p.ext_packet with
    | some .Continues =>
      if p.interchange.requestMutOk then
        let i := { p.interchange with st := IchState.Request }
        match packet_data p.ext_packet with
        | none => { p with panicked := true }
        | some d =>
          if i.request.length + d.length ≤ INTERCHANGE_CAPACITY then
            send_empty_datablock
              { p with interchange := { i with request := i.request ++ d } }
              .ExpectingMore usb
          else reset_state p
      else reset_state p
    | some .Ends =>
      if p.interchange.requestMutOk then
        let i := { p.interchange with st := IchState.Request }
        match packet_data p.ext_packet with
        | none => { p with panicked := true }
        | some d =>
          if i.request.length + d.length ≤ INTERCHANGE_CAPACITY then
            let p := call_app { p with interchange := { i with request := i.request ++ d } }
            { p with state := .Processing }
          else reset_state p
      else reset_state p
    | some _ => reset_state p
    | none => { p with panicked := true }
  | .Processing => reset_state p
  | .ReadyToSend => reset_state p
  | .Sending =>
    match packet_chain p.ext_packet with
    | some .ExpectingMore => prime_outbox p usb
    | some _ => reset_state p
    | none => { p with panicked := true }

/-- The dispatch block of `Pipe::handle_packet` (pipe.rs): parse the
reassembled message, set `seq` from it, apply the control-abort gate,
clear a superseded bulk abort, then act on the command kind.  Ghost
bookkeeping: the message is appended to `parse_log` on entering, and
the command passing the gate is recorded in `last_happy`. -/
def dispatch (p : PipeState) (usb : UsbWrite) : PipeState :=
  let p := { p with parse_log := p.parse_log ++ [p.ext_packet] }
  match parse_command p.ext_packet with
  | .ok cmd =>
    let m6 := p.ext_packet.getD 6 0
    let p := { p with seq := m6 }
    match p.control_abort with
    | some ca =>
      if cmd = .Abort ∧ ca = m6 then pipe_abort p usb
      else send_slot_status_error p 0xff usb
    | none =>
      let p := { p with bulk_abort := none, last_happy := some (cmd, m6) }
      match cmd with
      | .PowerOn => send_atr p usb
      | .PowerOff => send_slot_status_ok p usb
      | .GetSlotStatus => send_slot_status_ok p usb
      | .XfrBlock => handle_transfer p usb
      | .Abort => { p with bulk_abort := some m6 }
      | .GetParameters => send_parameters p usb
  | .shortPacket => reset_state p
  | .unknown _ =>
    send_slot_status_error { p with seq := p.ext_packet.getD 6 0 } 0x00 usb

/-- `Pipe::handle_packet` (pipe.rs): multi-USB-packet reassembly of a
CCID message, then dispatch once the declared length is satisfied.
The first-packet copy into the cleared reassembly buffer carries the
source's `.expect(..)` (a panic site); the continuation append resets
on overflow. -/
def handle_packet (p : PipeState) (packet : List Nat) (usb : UsbWrite) : PipeState :=
  if p.receiving_long = false then
    if packet.length < CCID_HEADER_LEN then reset_state p
    else
      match ext_extend [] packet with
      | none => { p with panicked := true }
      | some e =>
        let p := { p with ext_packet := e }
        let pl := data_len packet
        if pl > PACKET_SIZE - CCID_HEADER_LEN then
          { p with
            receiving_long := true
            in_chain := 1
            long_packet_missing := pl - (PACKET_SIZE - CCID_HEADER_LEN)
            packet_len := pl }
        else dispatch p usb
  else
    match ext_extend p.ext_packet packet with
    | none => reset_state p
    | some e =>
      let p := { p with ext_packet := e, in_chain := p.in_chain + 1 }
      let p :=
        if packet.length > p.long_packet_missing then
          { p with long_packet_missing := 0 }
        else
          { p with long_packet_missing := p.long_packet_missing - packet.length }
      if p.long_packet_missing ≠ 0 then p
      else dispatch { p with receiving_long := false } usb

/-- Iterated `handle_packet` over a list of inbound USB packets. -/
def handle_packets (p : PipeState) (pkts : List (List Nat)) (usb : UsbWrite) : PipeState :=
  pkts.foldl (fun a c => handle_packet a c usb) p

/-- `Pipe::expect_abort` (pipe.rs): the control-pipe half of the abort
rendezvous; non-zero slots are ignored. -/
def expect_abort (p : PipeState) (slot seqNo : Nat) (usb : UsbWrite) : PipeState :=
  if slot ≠ 0 then p
  else if p.bulk_abort = some seqNo then pipe_abort p usb
  else { p with control_abort := some seqNo }

/-- `Pipe::poll_app` (pipe.rs): promote Processing to ReadyToSend when
the interchange has responded, and prime the outbox. -/
def poll_app (p : PipeState) (usb : UsbWrite) : PipeState :=
  if p.state = .Processing ∧ p.interchange.st = .Responded then
    prime_outbox { p with state := .ReadyToSend, sent := 0 } usb
  else p

/-- `Pipe::send_wait_extension` (pipe.rs): while Processing, emit the
wait-extension frame and report true. -/
def send_wait_extension (p : PipeState) (usb : UsbWrite) : PipeState × Bool :=
  if p.state = .Processing then
    (send_packet_assuming_possible p (waitExtensionFrame p.seq) usb, true)
  else (p, false)

/-- `Pipe::did_start_processing` (pipe.rs): edge-triggered flag,
cleared on read. -/
def did_start_processing (p : PipeState) : PipeState × Bool :=
  if p.started_processing then ({ p with started_processing := false }, true)
  else (p, false)

/-- `Pipe::new` (pipe.rs): the freshly constructed pipe, with the ATR
precomputed (T=0 deliberately not signalled). -/
def initPipe (card_issuers_data : Option (List Nat)) : PipeState :=
  { seq := 0
    state := .Idle
    sent := 0
    outbox := none
    ext_packet := []
    packet_len := 0
    receiving_long := false
    long_packet_missing := 0
    in_chain := 0
    started_processing := false
    atr := construct_atr card_issuers_data false
    bulk_abort := none
    control_abort := none
    interchange := { st := .Idle, request := [], response := [] }
    wire := []
    emitted := []
    parse_log := []
    last_happy := none
    zlp_dropped := false
    panicked := false }

/-- One externally triggered event on the pipe: the five entry points
of pipe.rs plus the APDU processor publishing its response (spec
sections 5 and 6). -/
inductive Op where
  | handlePacket (pkt : List Nat) (usb : UsbWrite)
  | expectAbort (slot seqNo : Nat) (usb : UsbWrite)
  | pollApp (usb : UsbWrite)
  | maybeSend (usb : UsbWrite)
  | sendWaitExt (usb : UsbWrite)
  | didStart
  | respondApp (resp : List Nat)

/-- Interpretation of one event. -/
def step (p : PipeState) : Op → PipeState
  | .handlePacket pkt usb => handle_packet p pkt usb
  | .expectAbort slot seqNo usb => expect_abort p slot seqNo usb
  | .pollApp usb => poll_app p usb
  | .maybeSend usb => maybe_send_packet p usb
  | .sendWaitExt usb => (send_wait_extension p usb).1
  | .didStart => (did_start_processing p).1
  | .respondApp r =>
    if p.interchange.st = .Processing ∧ r.length ≤ INTERCHANGE_CAPACITY then
      { p with interchange := { p.interchange with st := .Responded, response := r } }
    else p

/-- A trace of events applied to a state. -/
def run (p : PipeState) (ops : List Op) : PipeState :=
  ops.foldl step p

/-! Concrete states and traces used by witnesses and counterexamples. -/

/-- A pipe that is ready to send a 3-byte response. -/
def demoReady : PipeState :=
  { initPipe none with
    state := .ReadyToSend
    interchange := { st := .Responded, request := [], response := [1, 2, 3] } }

/-- The 130-byte single XfrBlock message (dwLength 120) used to
demonstrate reassembly. -/
def demoMsg : List Nat := [0x6f, 120, 0, 0, 0, 0, 7, 0, 0, 0] ++ List.replicate 120 0xAB

/-- Trace: bulk Abort seq 1, control abort seq 2, GetSlotStatus seq 3,
control abort seq 1 — the abort rendezvous completes after an
intervening command. -/
def demoAbortTrace : List Op :=
  [.handlePacket [0x72, 0, 0, 0, 0, 0, 1, 0, 0, 0] (.ok 0),
   .expectAbort 0 2 (.ok 0),
   .handlePacket [0x65, 0, 0, 0, 0, 0, 3, 0, 0, 0] (.ok 10),
   .expectAbort 0 1 (.ok 10)]

/-- Trace: a 2-byte XfrBlock is handed to the APDU processor, then a
bulk Abort seq 2 arrives while it is still processing. -/
def demoAbortWhileProcessing : List Op :=
  [.handlePacket [0x6f, 2, 0, 0, 0, 0, 1, 0, 0, 0, 0x90, 0] (.ok 0),
   .handlePacket [0x72, 0, 0, 0, 0, 0, 2, 0, 0, 0] (.ok 0)]

/-- Trace: control abort seq 1, then a message with an unrecognized
command byte 0x40 and seq 2. -/
def demoUnknownWhileGated : List Op :=
  [.expectAbort 0 1 (.ok 0),
   .handlePacket [0x40, 0, 0, 0, 0, 0, 2, 0, 0, 0] (.ok 10)]

/-- Trace: a one-packet XfrBlock whose 60-byte response produces a
maximally sized first frame, fully written, followed by a
GetSlotStatus that overwrites the pending zero-length packet. -/
def demoZlpOverwrite : List Op :=
  [.handlePacket [0x6f, 1, 0, 0, 0, 0, 9, 0, 0, 0, 0xAA] (.ok 0),
   .respondApp (List.range 60),
   .pollApp (.ok 64),
   .handlePacket [0x65, 0, 0, 0, 0, 0, 9, 0, 0, 0] (.ok 10)]

/-- Trace: as above but the primed frame is stuck on WouldBlock; then
a control abort and a gated GetSlotStatus arrive. -/
def demoGatedWithOutbox : List Op :=
  [.handlePacket [0x6f, 1, 0, 0, 0, 0, 4, 0, 0, 0, 0xAA] (.ok 0),
   .respondApp (List.range 60),
   .pollApp .wouldBlock,
   .expectAbort 0 5 (.ok 0),
   .handlePacket [0x65, 0, 0, 0, 0, 0, 6, 0, 0, 0] .wouldBlock]

/-- Predicate used to state C8's zero-length-packet rule: every
maximally sized frame on the wire is immediately followed by a
zero-length packet. -/
def zlpOk (w : List (List Nat)) : Prop :=
  List.Chain' (fun a b => a.length = PACKET_SIZE → b = []) w

/-- Invariant behind C8's trace clause: unless a pending zero-length
packet has been discarded unsent (`zlp_dropped`), the wire satisfies
`zlpOk` and a trailing maximally sized frame still has its zero-length
packet pending in the outbox. -/
def ZlpInv (p : PipeState) : Prop :=
  p.zlp_dropped = false →
    zlpOk p.wire ∧ ∀ l ∈ p.wire.getLast?, l.length = PACKET_SIZE → p.outbox = some []

/-- A 70-byte GetSlotStatus message (dwLength 60, bSeq 0x22) that
spans two USB packets, used to demonstrate the sequence echo on a
chained command. -/
def demoChainedStatus : List Nat :=
  [0x65, 60, 0, 0, 0, 0, 0x22, 0, 0, 0] ++ List.replicate 60 0x55

/-- A pipe with a pending control abort for sequence number 1. -/
def demoGatedPipe : PipeState :=
  { initPipe none with control_abort := some 1 }

/-! ## Theorems -/

/-- heapless pushes stay exact while under capacity. -/
theorem aux_vecPush_eq (v : List Nat) (b : Nat) (h : v.length < 32) :
    vecPush 32 v b = v ++ [b] := by
  simp [vecPush, h]

/-- heapless extends stay exact while under capacity. -/
theorem aux_vecExtend_eq (v d : List Nat) (h : v.length + d.length ≤ 32) :
    vecExtendDiscard 32 v d = v ++ d := by
  simp [vecExtendDiscard, h]

/-- C9: the ATR built at pipe creation is TS = 0x3B, then T0 = 0x80|k
with k = 0 without issuer data and k = 2 + len(d) with it, then (no
T=0 byte under the default policy) 0x01, then — when issuer data is
present — 0x80, 0x50|len(d) and the data bytes, and finally the XOR
of all preceding bytes except the first; with no issuer data the ATR
is exactly 3B 80 01 81. -/
theorem claim_C9 (d : List Nat) (h : d.length ≤ 13) :
    construct_atr none false = [0x3B, 0x80, 0x01, 0x81] ∧
    construct_atr (some d) false =
      0x3B :: ((0x80 ||| (2 + d.length)) :: 0x01 :: 0x80 :: (0x50 ||| d.length) :: d
        ++ [((0x80 ||| (2 + d.length)) :: 0x01 :: 0x80 :: (0x50 ||| d.length) :: d).foldl
              (fun a b => a ^^^ b) 0]) := by
  refine ⟨rfl, ?_⟩
  have hm : d.length % 256 = d.length := Nat.mod_eq_of_lt (by omega)
  have hk : (2 + d.length) % 256 = 2 + d.length := Nat.mod_eq_of_lt (by omega)
  simp only [construct_atr, hm, hk]
  rw [aux_vecExtend_eq _ _ (by simp [vecPush] <;> omega),
    aux_vecPush_eq [] _ (by simp [vecPush] <;> omega),
    aux_vecPush_eq _ _ (by simp [vecPush] <;> omega),
    aux_vecPush_eq _ _ (by simp [vecPush] <;> omega),
    aux_vecPush_eq _ _ (by simp [vecPush] <;> omega),
    aux_vecPush_eq _ _ (by simp [vecPush] <;> omega),
    aux_vecPush_eq _ _ (by simp [vecPush] <;> omega)]
  simp [vecPush, List.foldl_cons]

/-- Witness for C9 at issuer data [0xAA]. -/
theorem claim_C9_witness :
    construct_atr none false = [0x3B, 0x80, 0x01, 0x81] ∧
    construct_atr (some [0xAA]) false =
      0x3B :: ((0x80 ||| (2 + 1)) :: 0x01 :: 0x80 :: (0x50 ||| 1) :: [0xAA]
        ++ [((0x80 ||| (2 + 1)) :: 0x01 :: 0x80 :: (0x50 ||| 1) :: [0xAA]).foldl
              (fun a b => a ^^^ b) 0]) := by
  have h := claim_C9 [0xAA] (by decide)
  simpa using h

/-- C10: copying a raw USB packet (at most `PACKET_SIZE` bytes) into
the freshly cleared reassembly buffer always succeeds, because
`PACKET_SIZE ≤ MAX_MSG_LENGTH` (the compile-time assertion at the top
of pipe.rs); the failure branch of the `.expect` in `handle_packet` is
unreachable. -/
theorem claim_C10 (pkt : List Nat) (h : pkt.length ≤ PACKET_SIZE) :
    ext_extend [] pkt = some pkt ∧ PACKET_SIZE ≤ MAX_MSG_LENGTH := by
  refine ⟨?_, by decide⟩
  have hc : PACKET_SIZE ≤ MAX_MSG_LENGTH := by decide
  simp only [ext_extend, List.length_nil, Nat.zero_add, List.nil_append]
  rw [if_pos (by omega)]

/-- Witness for C10 at a maximal 64-byte packet. -/
theorem claim_C10_witness :
    ext_extend [] (List.replicate PACKET_SIZE 0xFF) = some (List.replicate PACKET_SIZE 0xFF) ∧
    PACKET_SIZE ≤ MAX_MSG_LENGTH :=
  claim_C10 (List.replicate PACKET_SIZE 0xFF) (by simp)

/-- C7 (code bug): on a message whose header declares more payload
bytes than the buffer actually holds, the payload accessor
`PacketWithData::data` slices `self[10..][..len]` out of range and
panics (modelled by `none`); processing such a single-packet XfrBlock
reaches that panic.  The clamp defends only against a declared length
exceeding the buffer capacity, not against one exceeding the bytes
present, so the accessor is not total as claimed. -/
theorem claim_C7_bug :
    packet_data [0x6f, 5, 0, 0, 0, 0, 1, 0, 0, 0] = none ∧
    (handle_packet (initPipe none) [0x6f, 5, 0, 0, 0, 0, 1, 0, 0, 0] .wouldBlock).panicked
      = true := by
  decide

/-- C3 (code bug): a reassembled XfrBlock whose wLevelParameter is 4
makes `ChainedPacket::chain` (packet.rs) execute its panic arm
(modelled by `none`) before the caller's error handling in
`handle_transfer` can run, so the pipe neither resets nor stays
silent: it dies.  The caller in pipe.rs matches on a `Result` and
would reset, which is the intended behavior the claim describes. -/
theorem claim_C3_bug :
    packet_chain [0x6f, 0, 0, 0, 0, 0, 5, 0, 4, 0] = none ∧
    (handle_packet (initPipe none) [0x6f, 0, 0, 0, 0, 0, 5, 0, 4, 0] .wouldBlock).panicked
      = true ∧
    (handle_packet (initPipe none) [0x6f, 0, 0, 0, 0, 0, 5, 0, 4, 0] .wouldBlock).wire
      = [] := by
  decide


/-- C1: a call to prime_outbox in ReadyToSend or Sending with an empty
outbox and an APDU response of length L available builds a DataBlock
carrying the next chunk of min(PACKET_SIZE - CCID_HEADER_LEN, L - sent)
response bytes, advances sent by that amount, and tags and transitions
as: (ReadyToSend, more) Begins/Sending, (ReadyToSend, done)
BeginsAndEnds/Idle, (Sending, more) Continues/Sending, (Sending, done)
Ends/Idle; the frame then goes to the sender. -/
theorem claim_C1 (p : PipeState) (usb : UsbWrite) (resp : List Nat)
    (hst : p.state = State.ReadyToSend ∨ p.state = State.Sending)
    (hout : p.outbox = none)
    (hich : p.interchange.st = IchState.Responded)
    (hresp : p.interchange.response = resp)
    (hsent : p.sent ≤ resp.length) :
    let chunk_size := min (PACKET_SIZE - CCID_HEADER_LEN) (resp.length - p.sent)
    let chunk := (resp.drop p.sent).take chunk_size
    let more := p.sent + chunk_size < resp.length
    let ch := if p.state = State.ReadyToSend
              then (if more then Chain.Begins else Chain.BeginsAndEnds)
              else (if more then Chain.Continues else Chain.Ends)
    let frame := dataBlockRaw p.seq ch chunk
    (prime_outbox p usb =
      maybe_send_packet
        { p with
          sent := p.sent + chunk_size
          state := if more then State.Sending else State.Idle
          outbox := some frame
          emitted := p.emitted ++ [(frame, p.seq)] } usb)
    ∧ frame.drop CCID_HEADER_LEN = chunk
    ∧ frame.getD 9 0 = ch.toByte
    ∧ frame.length = CCID_HEADER_LEN + chunk_size := by
  intro chunk_size chunk more ch frame
  have hframe1 : frame.drop CCID_HEADER_LEN = chunk := by
    simp [frame, dataBlockRaw, toLE4, CCID_HEADER_LEN]
  have hframe2 : frame.getD 9 0 = ch.toByte := by
    simp [frame, dataBlockRaw, toLE4]
  have hframe3 : frame.length = CCID_HEADER_LEN + chunk_size := by
    simp [frame, dataBlockRaw, toLE4, CCID_HEADER_LEN, chunk, chunk_size]
    omega
  refine ⟨?_, hframe1, hframe2, hframe3⟩
  have hro : p.interchange.responseOk = some resp := by
    simp [Interchange.responseOk, hich, hresp]
  by_cases hm : p.sent + min (PACKET_SIZE - CCID_HEADER_LEN) (resp.length - p.sent) < resp.length
  · rcases hst with h | h <;>
    · simp only [prime_outbox, h, hout, hro]
      norm_num
      simp only [chainSel, decide_eq_true hm]
      unfold_let frame ch chunk chunk_size more
      simp [h, hm]
  · rcases hst with h | h <;>
    · simp only [prime_outbox, h, hout, hro]
      norm_num
      simp only [chainSel, decide_eq_false hm]
      unfold_let frame ch chunk chunk_size more
      simp [h, hm]

/-- Witness for C1 at a ReadyToSend pipe with a 3-byte response. -/
theorem claim_C1_witness :
    (prime_outbox demoReady UsbWrite.wouldBlock =
      maybe_send_packet
        { demoReady with
          sent := 3
          state := State.Idle
          outbox := some (dataBlockRaw 0 Chain.BeginsAndEnds [1, 2, 3])
          emitted := [(dataBlockRaw 0 Chain.BeginsAndEnds [1, 2, 3], 0)] } UsbWrite.wouldBlock)
    ∧ (dataBlockRaw 0 Chain.BeginsAndEnds [1, 2, 3]).drop CCID_HEADER_LEN = [1, 2, 3]
    ∧ (dataBlockRaw 0 Chain.BeginsAndEnds [1, 2, 3]).getD 9 0 = Chain.BeginsAndEnds.toByte
    ∧ (dataBlockRaw 0 Chain.BeginsAndEnds [1, 2, 3]).length = CCID_HEADER_LEN + 3 := by
  have h := claim_C1 demoReady UsbWrite.wouldBlock [1, 2, 3] (Or.inl rfl) rfl rfl rfl
    (by decide)
  simpa [demoReady, initPipe] using h

theorem aux_reset_ext (p : PipeState) : (reset_state p).ext_packet = p.ext_packet := rfl

theorem aux_reset_parse (p : PipeState) : (reset_state p).parse_log = p.parse_log := rfl

theorem aux_reset_recv (p : PipeState) : (reset_state p).receiving_long = false := rfl

theorem aux_msp_ext (p : PipeState) (usb : UsbWrite) :
    (maybe_send_packet p usb).ext_packet = p.ext_packet := by
  rcases hout : p.outbox with _ | pkt <;> cases usb <;>
    simp only [maybe_send_packet, hout] <;>
    (try split_ifs) <;> simp [reset_state]

theorem aux_msp_parse (p : PipeState) (usb : UsbWrite) :
    (maybe_send_packet p usb).parse_log = p.parse_log := by
  rcases hout : p.outbox with _ | pkt <;> cases usb <;>
    simp only [maybe_send_packet, hout] <;>
    (try split_ifs) <;> simp [reset_state]

theorem aux_msp_recv (p : PipeState) (usb : UsbWrite) (h : p.receiving_long = false) :
    (maybe_send_packet p usb).receiving_long = false := by
  rcases hout : p.outbox with _ | pkt <;> cases usb <;>
    simp only [maybe_send_packet, hout] <;>
    (try split_ifs) <;> simp [reset_state, h]


theorem aux_spa_ext (p : PipeState) (f : List Nat) (usb : UsbWrite) :
    (send_packet_assuming_possible p f usb).ext_packet = p.ext_packet := by
  by_cases hc : p.outbox.isSome <;>
    simp [send_packet_assuming_possible, hc, aux_msp_ext]

theorem aux_spa_parse (p : PipeState) (f : List Nat) (usb : UsbWrite) :
    (send_packet_assuming_possible p f usb).parse_log = p.parse_log := by
  by_cases hc : p.outbox.isSome <;>
    simp [send_packet_assuming_possible, hc, aux_msp_parse]

theorem aux_spa_recv (p : PipeState) (f : List Nat) (usb : UsbWrite)
    (h : p.receiving_long = false) :
    (send_packet_assuming_possible p f usb).receiving_long = false := by
  by_cases hc : p.outbox.isSome <;>
    simp only [send_packet_assuming_possible, hc, if_true, if_false] <;>
    rw [aux_msp_recv] <;> simp [h]

theorem aux_prime_ext (p : PipeState) (usb : UsbWrite) :
    (prime_outbox p usb).ext_packet = p.ext_packet := by
  unfold prime_outbox
  dsimp only
  repeat' split
  all_goals simp [aux_reset_ext, aux_msp_ext]

theorem aux_prime_parse (p : PipeState) (usb : UsbWrite) :
    (prime_outbox p usb).parse_log = p.parse_log := by
  unfold prime_outbox
  dsimp only
  repeat' split
  all_goals simp [aux_reset_parse, aux_msp_parse]

theorem aux_prime_recv (p : PipeState) (usb : UsbWrite) (h : p.receiving_long = false) :
    (prime_outbox p usb).receiving_long = false := by
  unfold prime_outbox
  dsimp only
  repeat' split
  all_goals first
    | exact h
    | simp [aux_reset_recv]
    | (rw [aux_msp_recv] <;> simp [h])

theorem aux_abort_ext (p : PipeState) (usb : UsbWrite) :
    (pipe_abort p usb).ext_packet = p.ext_packet := by
  unfold pipe_abort send_slot_status_ok
  simp [aux_spa_ext]

theorem aux_abort_parse (p : PipeState) (usb : UsbWrite) :
    (pipe_abort p usb).parse_log = p.parse_log := by
  unfold pipe_abort send_slot_status_ok
  simp [aux_spa_parse]

theorem aux_abort_recv (p : PipeState) (usb : UsbWrite) :
    (pipe_abort p usb).receiving_long = false := by
  unfold pipe_abort send_slot_status_ok
  dsimp only
  rw [aux_spa_recv] <;> simp

theorem aux_callapp_ext (p : PipeState) : (call_app p).ext_packet = p.ext_packet := by
  unfold call_app
  split <;> simp

theorem aux_callapp_parse (p : PipeState) : (call_app p).parse_log = p.parse_log := by
  unfold call_app
  split <;> simp

theorem aux_callapp_recv (p : PipeState) (h : p.receiving_long = false) :
    (call_app p).receiving_long = false := by
  unfold call_app
  split <;> simp [h]

theorem aux_transfer_ext (p : PipeState) (usb : UsbWrite) :
    (handle_transfer p usb).ext_packet = p.ext_packet := by
  unfold handle_transfer send_empty_datablock
  dsimp only
  repeat' split
  all_goals simp [aux_reset_ext, aux_spa_ext, aux_prime_ext, aux_callapp_ext]

theorem aux_transfer_parse (p : PipeState) (usb : UsbWrite) :
    (handle_transfer p usb).parse_log = p.parse_log := by
  unfold handle_transfer send_empty_datablock
  dsimp only
  repeat' split
  all_goals simp [aux_reset_parse, aux_spa_parse, aux_prime_parse, aux_callapp_parse]

theorem aux_transfer_recv (p : PipeState) (usb : UsbWrite) (h : p.receiving_long = false) :
    (handle_transfer p usb).receiving_long = false := by
  unfold handle_transfer send_empty_datablock
  dsimp only
  repeat' split
  all_goals first
    | exact h
    | simp [aux_reset_recv]
    | exact aux_prime_recv _ _ h
    | (rw [aux_spa_recv] <;> simp [h])
    | (rw [aux_spa_recv] <;> simp [h, aux_callapp_recv])
    | (rw [aux_callapp_recv] <;> simp [h])

theorem aux_dispatch_ghost (p : PipeState) (usb : UsbWrite) (h : p.receiving_long = false) :
    (dispatch p usb).ext_packet = p.ext_packet ∧
    (dispatch p usb).parse_log = p.parse_log ++ [p.ext_packet] ∧
    (dispatch p usb).receiving_long = false := by
  unfold dispatch send_atr send_slot_status_ok send_slot_status_error send_parameters
  dsimp only
  repeat' split
  all_goals refine ⟨?_, ?_, ?_⟩
  all_goals first
    | (rw [aux_spa_recv] <;> simp [h])
    | exact aux_transfer_recv _ _ (by simp [h])
    | simp [h, aux_reset_ext, aux_reset_parse, aux_reset_recv,
        aux_spa_ext, aux_spa_parse,
        aux_abort_ext, aux_abort_parse, aux_abort_recv,
        aux_transfer_ext, aux_transfer_parse]

theorem aux_nil_packets (cs : List (List Nat)) (p : PipeState) (usb : UsbWrite)
    (hcs : ∀ c ∈ cs, c = ([] : List Nat)) (h : p.receiving_long = false) :
    (handle_packets p cs usb).ext_packet = p.ext_packet ∧
    (handle_packets p cs usb).parse_log = p.parse_log ∧
    (handle_packets p cs usb).receiving_long = false := by
  induction cs generalizing p with
  | nil => simpa [handle_packets] using h
  | cons c cs ih =>
    have hc : c = ([] : List Nat) := hcs c (by simp)
    subst hc
    have hstep : handle_packet p [] usb = reset_state p := by
      simp [handle_packet, h, CCID_HEADER_LEN]
    simp only [handle_packets, List.foldl_cons]
    rw [hstep]
    have := ih (reset_state p) (fun x hx => hcs x (by simp [hx])) (aux_reset_recv p)
    simpa [handle_packets, aux_reset_ext, aux_reset_parse] using this

theorem aux_reassembly_loop (cs : List (List Nat)) (p : PipeState) (usb : UsbWrite)
    (hrl : p.receiving_long = true)
    (hmiss : (cs.map List.length).sum = p.long_packet_missing)
    (hpos : 0 < p.long_packet_missing)
    (hfit : p.ext_packet.length + p.long_packet_missing ≤ MAX_MSG_LENGTH) :
    (handle_packets p cs usb).ext_packet = p.ext_packet ++ cs.flatten ∧
    (handle_packets p cs usb).parse_log
      = p.parse_log ++ [p.ext_packet ++ cs.flatten] ∧
    (handle_packets p cs usb).receiving_long = false := by
  induction cs generalizing p with
  | nil =>
    exfalso
    simp at hmiss
    omega
  | cons c cs ih =>
    have hsum : c.length + (cs.map List.length).sum = p.long_packet_missing := by
      simpa using hmiss
    have hclen : c.length ≤ p.long_packet_missing := by omega
    have hext : ext_extend p.ext_packet c = some (p.ext_packet ++ c) := by
      simp only [ext_extend]
      rw [if_pos (by omega)]
    by_cases hlt : c.length < p.long_packet_missing
    · have hstep : handle_packet p c usb =
          { p with
            ext_packet := p.ext_packet ++ c
            in_chain := p.in_chain + 1
            long_packet_missing := p.long_packet_missing - c.length } := by
        simp only [handle_packet, hrl]
        rw [if_neg (show ¬(true = false) by decide)]
        rw [hext]
        dsimp only
        rw [if_neg (show ¬c.length > p.long_packet_missing by omega)]
        dsimp only
        rw [if_pos (show p.long_packet_missing - c.length ≠ 0 by omega)]
      simp only [handle_packets, List.foldl_cons]
      rw [hstep]
      have hrec := ih
        { p with
          ext_packet := p.ext_packet ++ c
          in_chain := p.in_chain + 1
          long_packet_missing := p.long_packet_missing - c.length }
        hrl (by simp; omega) (by simp; omega) (by simp; omega)
      simp only [handle_packets] at hrec
      simpa [List.append_assoc] using hrec
    · have hceq : c.length = p.long_packet_missing := by omega
      have hnil : ∀ x ∈ cs, x = ([] : List Nat) := by
        have h0 : (cs.map List.length).sum = 0 := by omega
        intro x hx
        have hx0 : x.length = 0 :=
          List.sum_eq_zero_iff.mp h0 x.length (List.mem_map_of_mem List.length hx)
        exact List.length_eq_zero.mp hx0
      have hflat : cs.flatten = ([] : List Nat) := List.flatten_eq_nil_iff.mpr hnil
      have hstep : handle_packet p c usb =
          dispatch
            { p with
              ext_packet := p.ext_packet ++ c
              in_chain := p.in_chain + 1
              long_packet_missing := p.long_packet_missing - c.length
              receiving_long := false } usb := by
        simp only [handle_packet, hrl]
        rw [if_neg (show ¬(true = false) by decide)]
        rw [hext]
        dsimp only
        rw [if_neg (show ¬c.length > p.long_packet_missing by omega)]
        dsimp only
        rw [if_neg (show ¬p.long_packet_missing - c.length ≠ 0 by omega)]
      simp only [handle_packets, List.foldl_cons]
      rw [hstep]
      obtain ⟨he, hp, hr⟩ := aux_dispatch_ghost
        { p with
          ext_packet := p.ext_packet ++ c
          in_chain := p.in_chain + 1
          long_packet_missing := p.long_packet_missing - c.length
          receiving_long := false } usb rfl
      obtain ⟨ne, np, nr⟩ := aux_nil_packets cs _ usb hnil hr
      simp only [handle_packets] at ne np nr
      refine ⟨?_, ?_, nr⟩
      · rw [ne, he]
        simp [hflat]
      · rw [np, hp]
        simp [hflat]

/-- C2: a CCID message of declared length D, delivered from a state
with receiving_long = false as USB packets of legal sizes (the first
maximal, all within PACKET_SIZE, total D + 10, fitting the advertised
maximum message length), reassembles to exactly the original header
plus D payload bytes and is then handed to command parsing. -/
theorem claim_C2 (p : PipeState) (usb : UsbWrite) (fst : List Nat)
    (rest : List (List Nat))
    (hrl : p.receiving_long = false)
    (hdecl : (fst ++ rest.flatten).length
      = CCID_HEADER_LEN + data_len (fst ++ rest.flatten))
    (hfst : fst.length = min (fst ++ rest.flatten).length PACKET_SIZE)
    (hpk : ∀ c ∈ rest, c.length ≤ PACKET_SIZE)
    (hfit : (fst ++ rest.flatten).length ≤ MAX_MSG_LENGTH) :
    (handle_packets p (fst :: rest) usb).ext_packet = fst ++ rest.flatten ∧
    (handle_packets p (fst :: rest) usb).parse_log
      = p.parse_log ++ [fst ++ rest.flatten] ∧
    (handle_packets p (fst :: rest) usb).receiving_long = false := by
  have hlen : (fst ++ rest.flatten).length = fst.length + rest.flatten.length :=
    List.length_append fst rest.flatten
  have hhdr : (CCID_HEADER_LEN : Nat) = 10 := rfl
  have hps : (PACKET_SIZE : Nat) = 64 := rfl
  have hmax : (MAX_MSG_LENGTH : Nat) = 3072 := rfl
  by_cases hbig : (fst ++ rest.flatten).length ≤ PACKET_SIZE
  · have hfstlen : fst.length = (fst ++ rest.flatten).length := by
      rw [hfst, Nat.min_eq_left hbig]
    have hrest : rest.flatten = ([] : List Nat) := by
      have : rest.flatten.length = 0 := by omega
      exact List.length_eq_zero.mp this
    have hnil : ∀ x ∈ rest, x = ([] : List Nat) := List.flatten_eq_nil_iff.mp hrest
    have hD : data_len fst ≤ PACKET_SIZE - CCID_HEADER_LEN := by
      have h2 := hdecl
      rw [hrest] at h2
      simp at h2
      omega
    have hextm : ext_extend [] fst = some fst := by
      simp only [ext_extend]
      rw [if_pos (by simp; omega)]
      simp
    have hstep : handle_packet p fst usb =
        dispatch { p with ext_packet := fst } usb := by
      simp only [handle_packet, hrl, if_true]
      rw [if_neg (show ¬fst.length < CCID_HEADER_LEN by omega)]
      rw [hextm]
      dsimp only
      rw [if_neg (show ¬data_len fst > PACKET_SIZE - CCID_HEADER_LEN by omega)]
    simp only [handle_packets, List.foldl_cons]
    rw [hstep]
    obtain ⟨he, hp2, hr⟩ := aux_dispatch_ghost { p with ext_packet := fst } usb hrl
    obtain ⟨ne, np, nr⟩ := aux_nil_packets rest _ usb hnil hr
    simp only [handle_packets] at ne np nr
    refine ⟨?_, ?_, nr⟩
    · rw [ne, he]
      simp [hrest]
    · rw [np, hp2]
      simp [hrest]
  · have hfstlen : fst.length = PACKET_SIZE := by
      rw [hfst, Nat.min_eq_right (by omega)]
    have hD : data_len fst = data_len (fst ++ rest.flatten) := by
      simp only [data_len]
      rw [List.getD_append _ _ _ _ (by omega), List.getD_append _ _ _ _ (by omega),
        List.getD_append _ _ _ _ (by omega), List.getD_append _ _ _ _ (by omega)]
    have hextm : ext_extend [] fst = some fst := by
      simp only [ext_extend]
      rw [if_pos (by simp; omega)]
      simp
    have hstep : handle_packet p fst usb =
        { p with
          ext_packet := fst
          receiving_long := true
          in_chain := 1
          long_packet_missing := data_len fst - (PACKET_SIZE - CCID_HEADER_LEN)
          packet_len := data_len fst } := by
      simp only [handle_packet, hrl, if_true]
      rw [if_neg (show ¬fst.length < CCID_HEADER_LEN by omega)]
      rw [hextm]
      dsimp only
      rw [if_pos (show data_len fst > PACKET_SIZE - CCID_HEADER_LEN by omega)]
    simp only [handle_packets, List.foldl_cons]
    rw [hstep]
    have hsum : (rest.map List.length).sum = rest.flatten.length :=
      (List.length_flatten rest).symm
    have hrec := aux_reassembly_loop rest
      { p with
        ext_packet := fst
        receiving_long := true
        in_chain := 1
        long_packet_missing := data_len fst - (PACKET_SIZE - CCID_HEADER_LEN)
        packet_len := data_len fst } usb
      rfl (by simp; omega) (by simp; omega) (by simp; omega)
    simp only [handle_packets] at hrec
    simpa using hrec

set_option maxRecDepth 4000 in
/-- Witness for C2 at a 130-byte message split 64 + 64 + 2. -/
theorem claim_C2_witness :
    (handle_packets (initPipe none)
        (demoMsg.take 64 :: [(demoMsg.drop 64).take 64, demoMsg.drop 128])
        UsbWrite.wouldBlock).ext_packet
      = demoMsg.take 64 ++ [(demoMsg.drop 64).take 64, demoMsg.drop 128].flatten ∧
    (handle_packets (initPipe none)
        (demoMsg.take 64 :: [(demoMsg.drop 64).take 64, demoMsg.drop 128])
        UsbWrite.wouldBlock).parse_log
      = (initPipe none).parse_log
        ++ [demoMsg.take 64 ++ [(demoMsg.drop 64).take 64, demoMsg.drop 128].flatten] ∧
    (handle_packets (initPipe none)
        (demoMsg.take 64 :: [(demoMsg.drop 64).take 64, demoMsg.drop 128])
        UsbWrite.wouldBlock).receiving_long = false :=
  claim_C2 (initPipe none) UsbWrite.wouldBlock (demoMsg.take 64)
    [(demoMsg.drop 64).take 64, demoMsg.drop 128]
    rfl (by decide) (by decide) (by decide) (by decide)

theorem aux_parse_len {pk : List Nat} {cmd : CommandKind}
    (h : parse_command pk = ParseResult.ok cmd) : CCID_HEADER_LEN ≤ pk.length := by
  by_contra hlt
  rw [parse_command, if_pos (by omega)] at h
  exact absurd h (by simp)

theorem aux_single_packet_step (p : PipeState) (pk : List Nat) (usb : UsbWrite)
    (hrl : p.receiving_long = false)
    (hlen : CCID_HEADER_LEN ≤ pk.length)
    (hcap : pk.length ≤ MAX_MSG_LENGTH)
    (hshort : data_len pk ≤ PACKET_SIZE - CCID_HEADER_LEN) :
    handle_packet p pk usb = dispatch { p with ext_packet := pk } usb := by
  have hextm : ext_extend [] pk = some pk := by
    simp only [ext_extend]
    rw [if_pos (by simp; omega)]
    simp
  simp only [handle_packet, hrl, if_true]
  rw [if_neg (show ¬pk.length < CCID_HEADER_LEN by omega)]
  rw [hextm]
  dsimp only
  rw [if_neg (show ¬data_len pk > PACKET_SIZE - CCID_HEADER_LEN by omega)]

/-- C5 (amended): while control_abort = Some s, a bulk message that
parses as one of the six commands and is not an Abort with bSeq = s is
answered with SlotStatusError(CmdAborted) — 0x6c, bStatus 1<<6, bError
0xff, bSeq echoed — and is not dispatched, and when the outbox is
empty the rest of the pipe state is untouched; an Abort with bSeq = s
runs the abort procedure: both halves cleared, state Idle, interchange
cancelled, SlotStatusOk(s) emitted.  (The original claim fails for
unrecognized command bytes, which bypass the gate, and for an occupied
outbox, which is overwritten with the state dropping to Idle.) -/
theorem claim_C5_amended :
    (∀ (p : PipeState) (pk : List Nat) (usb : UsbWrite) (s : Nat) (cmd : CommandKind),
      p.receiving_long = false → p.outbox = none → p.control_abort = some s →
      parse_command pk = ParseResult.ok cmd →
      pk.length ≤ PACKET_SIZE →
      data_len pk ≤ PACKET_SIZE - CCID_HEADER_LEN →
      ¬(cmd = CommandKind.Abort ∧ s = pk.getD 6 0) →
      handle_packet p pk usb =
        maybe_send_packet
          { p with
            ext_packet := pk
            parse_log := p.parse_log ++ [pk]
            seq := pk.getD 6 0
            outbox := some (slotStatusErrorFrame (pk.getD 6 0) 0xff)
            emitted := p.emitted
              ++ [(slotStatusErrorFrame (pk.getD 6 0) 0xff, pk.getD 6 0)] } usb) ∧
    (∀ (p : PipeState) (pk : List Nat) (usb : UsbWrite) (s : Nat),
      p.receiving_long = false → p.control_abort = some s →
      parse_command pk = ParseResult.ok CommandKind.Abort →
      pk.length ≤ PACKET_SIZE →
      data_len pk ≤ PACKET_SIZE - CCID_HEADER_LEN →
      s = pk.getD 6 0 →
      handle_packet p pk usb =
        maybe_send_packet
          { p with
            ext_packet := pk
            parse_log := p.parse_log ++ [pk]
            seq := pk.getD 6 0
            bulk_abort := none
            control_abort := none
            state := State.Idle
            started_processing := false
            receiving_long := false
            long_packet_missing := 0
            interchange := p.interchange.cancel
            zlp_dropped := p.zlp_dropped || isPendingZlp p.outbox
            outbox := some (slotStatusOkFrame (pk.getD 6 0))
            emitted := p.emitted
              ++ [(slotStatusOkFrame (pk.getD 6 0), pk.getD 6 0)] } usb) := by
  constructor
  · intro p pk usb s cmd hrl hout hca hparse hcap hshort hnot
    rw [aux_single_packet_step p pk usb hrl (aux_parse_len hparse)
      (Nat.le_trans hcap (by decide)) hshort]
    simp only [dispatch]
    rw [hparse]
    try dsimp only
    rw [hca]
    try dsimp only
    rw [if_neg (by simpa using hnot)]
    simp only [send_slot_status_error, send_packet_assuming_possible]
    rw [if_neg (by simp [hout])]
  · intro p pk usb s hrl hca hparse hcap hshort hseq
    rw [aux_single_packet_step p pk usb hrl (aux_parse_len hparse)
      (Nat.le_trans hcap (by decide)) hshort]
    simp only [dispatch]
    rw [hparse]
    try dsimp only
    rw [hca]
    try dsimp only
    rw [if_pos (by simp [hseq])]
    simp only [pipe_abort, send_slot_status_ok, send_packet_assuming_possible]
    try dsimp only
    rw [if_neg (by simp)]
    try rfl

/-- Counterexample to C5 as stated: with control_abort = Some 1
pending, a message with the unrecognized command byte 0x40 and seq 2
is answered with SlotStatusError(CommandNotSupported), not
SlotStatusError(CmdAborted); and a gated GetSlotStatus arriving while
a frame is stuck in the outbox drops the state from Sending to Idle. -/
theorem claim_C5_counterexample :
    (run (initPipe none) demoUnknownWhileGated).emitted
      = [(slotStatusErrorFrame 2 0x00, 2)] ∧
    slotStatusErrorFrame 2 0x00 ≠ slotStatusErrorFrame 2 0xff ∧
    (run (initPipe none) demoGatedWithOutbox).state = State.Idle ∧
    (run (initPipe none) (demoGatedWithOutbox.take 4)).state = State.Sending := by
  decide

/-- Witness for C5 at a gated GetSlotStatus and a matching Abort. -/
theorem claim_C5_witness :
    (handle_packet demoGatedPipe [0x65, 0, 0, 0, 0, 0, 6, 0, 0, 0] UsbWrite.wouldBlock =
      maybe_send_packet
        { demoGatedPipe with
          ext_packet := [0x65, 0, 0, 0, 0, 0, 6, 0, 0, 0]
          parse_log := [[0x65, 0, 0, 0, 0, 0, 6, 0, 0, 0]]
          seq := 6
          outbox := some (slotStatusErrorFrame 6 0xff)
          emitted := [(slotStatusErrorFrame 6 0xff, 6)] } UsbWrite.wouldBlock) ∧
    (handle_packet demoGatedPipe [0x72, 0, 0, 0, 0, 0, 1, 0, 0, 0] UsbWrite.wouldBlock =
      maybe_send_packet
        { demoGatedPipe with
          ext_packet := [0x72, 0, 0, 0, 0, 0, 1, 0, 0, 0]
          parse_log := [[0x72, 0, 0, 0, 0, 0, 1, 0, 0, 0]]
          seq := 1
          bulk_abort := none
          control_abort := none
          state := State.Idle
          started_processing := false
          receiving_long := false
          long_packet_missing := 0
          interchange := (demoGatedPipe.interchange).cancel
          zlp_dropped := false
          outbox := some (slotStatusOkFrame 1)
          emitted := [(slotStatusOkFrame 1, 1)] } UsbWrite.wouldBlock) := by
  constructor
  · exact claim_C5_amended.1 demoGatedPipe [0x65, 0, 0, 0, 0, 0, 6, 0, 0, 0]
      UsbWrite.wouldBlock 1 CommandKind.GetSlotStatus rfl rfl rfl (by decide) (by decide)
      (by decide) (by decide)
  · exact claim_C5_amended.2 demoGatedPipe [0x72, 0, 0, 0, 0, 0, 1, 0, 0, 0]
      UsbWrite.wouldBlock 1 rfl rfl (by decide) (by decide) (by decide) (by decide)

theorem aux_reset_emit (p : PipeState) : (reset_state p).emitted = p.emitted := rfl

theorem aux_msp_emit (p : PipeState) (usb : UsbWrite) :
    (maybe_send_packet p usb).emitted = p.emitted := by
  rcases hout : p.outbox with _ | pkt <;> cases usb <;>
    simp only [maybe_send_packet, hout] <;>
    (try split_ifs) <;> simp [reset_state]

theorem aux_spa_emit (p : PipeState) (f : List Nat) (usb : UsbWrite) :
    (send_packet_assuming_possible p f usb).emitted = p.emitted ++ [(f, p.seq)] := by
  by_cases hc : p.outbox.isSome <;>
    simp [send_packet_assuming_possible, hc, aux_msp_emit]

theorem aux_callapp_emit (p : PipeState) : (call_app p).emitted = p.emitted := by
  unfold call_app
  split <;> simp

theorem aux_dataBlock_seq (s : Nat) (c : Chain) (d : List Nat) :
    (dataBlockRaw s c d).getD 6 0 = s := by
  simp [dataBlockRaw, toLE4]

theorem aux_prime_emit (p : PipeState) (usb : UsbWrite) :
    ∀ fc ∈ (prime_outbox p usb).emitted.drop p.emitted.length,
      fc.1.getD 6 0 = p.seq ∧ fc.2 = p.seq := by
  unfold prime_outbox
  dsimp only
  repeat' split
  all_goals intro fc hfc
  all_goals try simp only [aux_msp_emit, aux_reset_emit] at hfc
  all_goals try simp only [List.drop_left] at hfc
  all_goals first
    | (simp at hfc
       done)
    | (subst hfc
       exact ⟨aux_dataBlock_seq _ _ _, rfl⟩)
    | (simp only [List.mem_singleton] at hfc
       subst hfc
       exact ⟨aux_dataBlock_seq _ _ _, rfl⟩)

theorem aux_abort_emit (p : PipeState) (usb : UsbWrite) :
    (pipe_abort p usb).emitted = p.emitted ++ [(slotStatusOkFrame p.seq, p.seq)] := by
  unfold pipe_abort send_slot_status_ok
  dsimp only
  rw [aux_spa_emit]

theorem aux_transfer_emit (p : PipeState) (usb : UsbWrite) (n : Nat)
    (hn : n = p.emitted.length) :
    ∀ fc ∈ (handle_transfer p usb).emitted.drop n,
      fc.1.getD 6 0 = p.seq ∧ fc.2 = p.seq := by
  subst hn
  unfold handle_transfer send_empty_datablock
  dsimp only
  repeat' split
  all_goals first
    | exact aux_prime_emit _ _
    | (intro fc hfc
       simp only [aux_spa_emit, aux_reset_emit, aux_callapp_emit,
         List.drop_left] at hfc
       first
        | (simp at hfc
           done)
        | (subst hfc
           exact ⟨aux_dataBlock_seq _ _ _, rfl⟩)
        | (simp only [List.mem_singleton] at hfc
           subst hfc
           exact ⟨aux_dataBlock_seq _ _ _, rfl⟩))

theorem aux_dispatch_emit (p : PipeState) (usb : UsbWrite) (n : Nat)
    (hn : n = p.emitted.length) :
    ∀ fc ∈ (dispatch p usb).emitted.drop n,
      fc.1.getD 6 0 = p.ext_packet.getD 6 0 ∧ fc.2 = p.ext_packet.getD 6 0 := by
  subst hn
  unfold dispatch send_atr send_slot_status_ok send_slot_status_error send_parameters
  dsimp only
  repeat' split
  all_goals intro fc hfc
  all_goals try simp only [aux_spa_emit, aux_abort_emit, aux_reset_emit,
    List.drop_left] at hfc
  all_goals first
    | (simp at hfc
       done)
    | (subst hfc
       exact ⟨rfl, rfl⟩)
    | (subst hfc
       exact ⟨aux_dataBlock_seq _ _ _, rfl⟩)
    | (simp only [List.mem_singleton] at hfc
       subst hfc
       exact ⟨rfl, rfl⟩)
    | (simp only [List.mem_singleton] at hfc
       subst hfc
       exact ⟨aux_dataBlock_seq _ _ _, rfl⟩)
    | (have h2 := aux_transfer_emit _ _ p.emitted.length (by rfl) fc hfc
       exact h2)

theorem aux_dispatch_ext (p : PipeState) (usb : UsbWrite) :
    (dispatch p usb).ext_packet = p.ext_packet := by
  unfold dispatch send_atr send_slot_status_ok send_slot_status_error send_parameters
  dsimp only
  repeat' split
  all_goals simp [aux_reset_ext, aux_spa_ext, aux_transfer_ext, aux_abort_ext]

/-- C4 (amended): every response frame emitted by a call to
handle_packet — whether the command arrived in one packet or chained
across several — carries, both in the frame's bSeq byte and in its
recorded cause, the bSeq of the fully reassembled message held in
ext_packet, i.e. the bSeq of the command being dispatched; frames
emitted by send_wait_extension, by poll_app and by the expect_abort
completion carry the pipe's current seq.  (The original per-cause
claim fails at the abort rendezvous: dispatch stores the bSeq of every
message that parses into seq, including commands the control-abort
gate rejects without dispatching, so the completion SlotStatusOk can
carry an intervening command's seq.) -/
theorem claim_C4_amended :
    (∀ (p : PipeState) (pk : List Nat) (usb : UsbWrite),
      ∀ fc ∈ (handle_packet p pk usb).emitted.drop p.emitted.length,
        fc.1.getD 6 0 = (handle_packet p pk usb).ext_packet.getD 6 0 ∧
        fc.2 = (handle_packet p pk usb).ext_packet.getD 6 0) ∧
    (∀ (p : PipeState) (usb : UsbWrite),
      ∀ fc ∈ ((send_wait_extension p usb).1).emitted.drop p.emitted.length,
        fc.1.getD 6 0 = p.seq ∧ fc.2 = p.seq) ∧
    (∀ (p : PipeState) (usb : UsbWrite),
      ∀ fc ∈ (poll_app p usb).emitted.drop p.emitted.length,
        fc.1.getD 6 0 = p.seq ∧ fc.2 = p.seq) ∧
    (∀ (p : PipeState) (slot seqNo : Nat) (usb : UsbWrite),
      ∀ fc ∈ (expect_abort p slot seqNo usb).emitted.drop p.emitted.length,
        fc.1.getD 6 0 = p.seq ∧ fc.2 = p.seq) := by
  refine ⟨?_, ?_, ?_, ?_⟩
  · intro p pk usb
    unfold handle_packet
    dsimp only
    repeat' split
    all_goals intro fc hfc
    all_goals first
      | (rw [aux_dispatch_ext]
         exact aux_dispatch_emit _ usb p.emitted.length (by rfl) fc hfc)
      | (simp only [aux_reset_emit] at hfc
         rw [List.drop_length] at hfc
         simp at hfc)
      | (dsimp only at hfc
         rw [List.drop_length] at hfc
         simp at hfc)
  · intro p usb
    unfold send_wait_extension
    split
    · intro fc hfc
      simp only [aux_spa_emit, List.drop_left] at hfc
      first
        | (simp at hfc
           done)
        | (subst hfc
           exact ⟨rfl, rfl⟩)
        | (simp only [List.mem_singleton] at hfc
           subst hfc
           exact ⟨rfl, rfl⟩)
    · intro fc hfc
      simp at hfc
  · intro p usb
    unfold poll_app
    split
    · exact aux_prime_emit { p with state := State.ReadyToSend, sent := 0 } usb
    · intro fc hfc
      simp at hfc
  · intro p slot seqNo usb
    unfold expect_abort
    repeat' split
    all_goals intro fc hfc
    all_goals first
      | (rw [List.drop_length] at hfc
         simp at hfc)
      | (dsimp only at hfc
         rw [List.drop_length] at hfc
         simp at hfc)
      | (simp only [aux_abort_emit, List.drop_left] at hfc
         simp only [List.mem_singleton] at hfc
         subst hfc
         exact ⟨rfl, rfl⟩)

/-- Counterexample to C4 as stated: bulk Abort seq 1, control abort
seq 2, rejected GetSlotStatus seq 3, then control abort seq 1
completes the rendezvous for seq 1, yet the emitted SlotStatusOk
carries bSeq 3. -/
theorem claim_C4_counterexample :
    (run (initPipe none) demoAbortTrace).emitted
      = [(slotStatusErrorFrame 3 0xff, 3), (slotStatusOkFrame 3, 3)] ∧
    (run (initPipe none) (demoAbortTrace.take 3)).bulk_abort = some 1 ∧
    (slotStatusOkFrame 3).getD 6 0 = 3 ∧ (3 : Nat) ≠ 1 := by
  decide

/-- Witness for C4: the SlotStatusOk answering a single-packet
GetSlotStatus with seq 0x11, and the one answering the chained
two-packet GetSlotStatus demoChainedStatus with seq 0x22, both carry
the dispatched message's bSeq. -/
theorem claim_C4_witness :
    ((slotStatusOkFrame 0x11).getD 6 0
        = (handle_packet (initPipe none) [0x65, 0, 0, 0, 0, 0, 0x11, 0, 0, 0]
            UsbWrite.wouldBlock).ext_packet.getD 6 0 ∧
      (0x11 : Nat)
        = (handle_packet (initPipe none) [0x65, 0, 0, 0, 0, 0, 0x11, 0, 0, 0]
            UsbWrite.wouldBlock).ext_packet.getD 6 0) ∧
    ((slotStatusOkFrame 0x22).getD 6 0
        = (handle_packet
            (handle_packet (initPipe none) (demoChainedStatus.take 64)
              UsbWrite.wouldBlock)
            (demoChainedStatus.drop 64) UsbWrite.wouldBlock).ext_packet.getD 6 0 ∧
      (0x22 : Nat)
        = (handle_packet
            (handle_packet (initPipe none) (demoChainedStatus.take 64)
              UsbWrite.wouldBlock)
            (demoChainedStatus.drop 64) UsbWrite.wouldBlock).ext_packet.getD 6 0) :=
  ⟨claim_C4_amended.1 (initPipe none) [0x65, 0, 0, 0, 0, 0, 0x11, 0, 0, 0]
      UsbWrite.wouldBlock (slotStatusOkFrame 0x11, 0x11) (by decide),
    claim_C4_amended.1
      (handle_packet (initPipe none) (demoChainedStatus.take 64) UsbWrite.wouldBlock)
      (demoChainedStatus.drop 64) UsbWrite.wouldBlock
      (slotStatusOkFrame 0x22, 0x22) (by decide)⟩

theorem aux_reset_inv (p : PipeState) :
    ∀ s, (reset_state p).bulk_abort = some s →
      (reset_state p).last_happy = some (CommandKind.Abort, s) := by
  intro s hs
  simp [reset_state] at hs

theorem aux_msp_inv (p : PipeState) (usb : UsbWrite)
    (hinv : ∀ s, p.bulk_abort = some s → p.last_happy = some (CommandKind.Abort, s)) :
    ∀ s, (maybe_send_packet p usb).bulk_abort = some s →
      (maybe_send_packet p usb).last_happy = some (CommandKind.Abort, s) := by
  rcases hout : p.outbox with _ | pkt <;> cases usb <;>
    simp only [maybe_send_packet, hout] <;>
    (try split_ifs) <;>
    first
      | exact hinv
      | exact fun s hs => hinv s hs
      | exact aux_reset_inv p

theorem aux_spa_inv (p : PipeState) (f : List Nat) (usb : UsbWrite)
    (hinv : ∀ s, p.bulk_abort = some s → p.last_happy = some (CommandKind.Abort, s)) :
    ∀ s, (send_packet_assuming_possible p f usb).bulk_abort = some s →
      (send_packet_assuming_possible p f usb).last_happy = some (CommandKind.Abort, s) := by
  unfold send_packet_assuming_possible
  by_cases hc : p.outbox.isSome <;>
    simp only [hc, if_true, if_false] <;>
    exact aux_msp_inv _ _ (fun s hs => hinv s hs)

theorem aux_callapp_inv (p : PipeState)
    (hinv : ∀ s, p.bulk_abort = some s → p.last_happy = some (CommandKind.Abort, s)) :
    ∀ s, (call_app p).bulk_abort = some s →
      (call_app p).last_happy = some (CommandKind.Abort, s) := by
  unfold call_app
  split <;> exact fun s hs => hinv s hs

theorem aux_prime_inv (p : PipeState) (usb : UsbWrite)
    (hinv : ∀ s, p.bulk_abort = some s → p.last_happy = some (CommandKind.Abort, s)) :
    ∀ s, (prime_outbox p usb).bulk_abort = some s →
      (prime_outbox p usb).last_happy = some (CommandKind.Abort, s) := by
  unfold prime_outbox
  dsimp only
  repeat' split
  all_goals first
    | exact hinv
    | exact aux_reset_inv _
    | exact aux_msp_inv _ _ (fun s hs => hinv s hs)

theorem aux_abort_inv (p : PipeState) (usb : UsbWrite) :
    ∀ s, (pipe_abort p usb).bulk_abort = some s →
      (pipe_abort p usb).last_happy = some (CommandKind.Abort, s) := by
  unfold pipe_abort send_slot_status_ok
  dsimp only
  exact aux_spa_inv _ _ _ (by simp)

theorem aux_transfer_inv (p : PipeState) (usb : UsbWrite)
    (hinv : ∀ s, p.bulk_abort = some s → p.last_happy = some (CommandKind.Abort, s)) :
    ∀ s, (handle_transfer p usb).bulk_abort = some s →
      (handle_transfer p usb).last_happy = some (CommandKind.Abort, s) := by
  unfold handle_transfer send_empty_datablock
  dsimp only
  repeat' split
  all_goals first
    | exact hinv
    | exact fun s hs => hinv s hs
    | exact aux_reset_inv _
    | exact aux_prime_inv _ _ hinv
    | exact aux_spa_inv _ _ _ (fun s hs => hinv s hs)
    | exact fun s hs => aux_callapp_inv _ (fun t ht => hinv t ht) s hs

theorem aux_dispatch_inv (p : PipeState) (usb : UsbWrite)
    (hinv : ∀ s, p.bulk_abort = some s → p.last_happy = some (CommandKind.Abort, s)) :
    ∀ s, (dispatch p usb).bulk_abort = some s →
      (dispatch p usb).last_happy = some (CommandKind.Abort, s) := by
  unfold dispatch send_atr send_slot_status_ok send_slot_status_error send_parameters
  dsimp only
  repeat' split
  all_goals first
    | exact hinv
    | exact fun s hs => hinv s hs
    | exact aux_reset_inv _
    | exact aux_abort_inv _ _
    | exact aux_spa_inv _ _ _ (fun s hs => hinv s hs)
    | exact aux_spa_inv _ _ _ (by simp)
    | exact aux_transfer_inv _ _ (by simp)
    | (intro s hs
       simp at hs
       subst hs
       simp [List.getD])

theorem aux_hp_inv (p : PipeState) (pk : List Nat) (usb : UsbWrite)
    (hinv : ∀ s, p.bulk_abort = some s → p.last_happy = some (CommandKind.Abort, s)) :
    ∀ s, (handle_packet p pk usb).bulk_abort = some s →
      (handle_packet p pk usb).last_happy = some (CommandKind.Abort, s) := by
  unfold handle_packet
  dsimp only
  repeat' split
  all_goals first
    | exact hinv
    | exact fun s hs => hinv s hs
    | exact aux_reset_inv _
    | exact aux_dispatch_inv _ _ (fun s hs => hinv s hs)

theorem aux_step_inv (p : PipeState) (op : Op)
    (hinv : ∀ s, p.bulk_abort = some s → p.last_happy = some (CommandKind.Abort, s)) :
    ∀ s, (step p op).bulk_abort = some s →
      (step p op).last_happy = some (CommandKind.Abort, s) := by
  cases op <;>
    unfold step expect_abort poll_app send_wait_extension did_start_processing <;>
    dsimp only <;>
    repeat' split
  all_goals first
    | exact hinv
    | exact fun s hs => hinv s hs
    | exact aux_hp_inv _ _ _ hinv
    | exact aux_abort_inv _ _
    | exact aux_prime_inv _ _ (fun s hs => hinv s hs)
    | exact aux_spa_inv _ _ _ hinv
    | exact aux_msp_inv _ _ hinv

/-- C6 (amended): over every trace from the initial state, if
bulk_abort = Some s then the last command dispatched past the
control-abort gate was an Abort with bSeq s.  (The original invariant
— state in {Idle, Receiving} and no request in flight — fails because
dispatching an Abort leaves the state and the APDU channel untouched.) -/
theorem claim_C6_amended (issuer : Option (List Nat)) (ops : List Op) (s : Nat)
    (h : (run (initPipe issuer) ops).bulk_abort = some s) :
    (run (initPipe issuer) ops).last_happy = some (CommandKind.Abort, s) := by
  have main : ∀ (l : List Op) (q : PipeState),
      (∀ t, q.bulk_abort = some t → q.last_happy = some (CommandKind.Abort, t)) →
      ∀ t, (run q l).bulk_abort = some t →
        (run q l).last_happy = some (CommandKind.Abort, t) := by
    intro l
    induction l with
    | nil => intro q hinv; simpa [run] using hinv
    | cons op l ih =>
      intro q hinv
      simp only [run, List.foldl_cons]
      have h1 := aux_step_inv q op hinv
      have h2 := ih (step q op) h1
      simpa [run] using h2
  exact main ops (initPipe issuer) (by simp [initPipe]) s h

/-- Counterexample to C6 as stated: an Abort received while an
XfrBlock is being processed leaves bulk_abort = Some 2 with state
Processing and the APDU request still in flight. -/
theorem claim_C6_counterexample :
    (run (initPipe none) demoAbortWhileProcessing).bulk_abort = some 2 ∧
    (run (initPipe none) demoAbortWhileProcessing).state = State.Processing ∧
    (run (initPipe none) demoAbortWhileProcessing).interchange.st = IchState.Processing := by
  decide

/-- Witness for C6 on the abort-while-processing trace. -/
theorem claim_C6_witness :
    (run (initPipe none) demoAbortWhileProcessing).last_happy
      = some (CommandKind.Abort, 2) :=
  claim_C6_amended none demoAbortWhileProcessing 2 (by decide)

theorem aux_z_reset (p : PipeState) (hz : ZlpInv p) : ZlpInv (reset_state p) := by
  intro hd
  have hd2 : p.zlp_dropped = false ∧ isPendingZlp p.outbox = false := by
    simpa [reset_state] using hd
  obtain ⟨hchain, hpend⟩ := hz hd2.1
  refine ⟨hchain, ?_⟩
  intro l hl hlf
  exfalso
  have ho := hpend l hl hlf
  have := hd2.2
  rw [ho] at this
  simp [isPendingZlp] at this

theorem aux_z_msp (p : PipeState) (usb : UsbWrite) (hz : ZlpInv p) :
    ZlpInv (maybe_send_packet p usb) := by
  rcases hout : p.outbox with _ | f
  · simpa [maybe_send_packet, hout] using hz
  · cases usb with
    | wouldBlock => simpa [maybe_send_packet, hout] using hz
    | error =>
      simp only [maybe_send_packet, hout]
      exact aux_z_reset p hz
    | ok n =>
      simp only [maybe_send_packet, hout]
      split_ifs with hn hfull
      · intro hd
        have hd' : p.zlp_dropped = false := hd
        obtain ⟨hchain, hpend⟩ := hz hd'
        constructor
        · show zlpOk (p.wire ++ [f])
          rw [zlpOk, List.chain'_append]
          refine ⟨hchain, List.chain'_singleton _, ?_⟩
          intro x hx y hy
          simp at hy
          subst hy
          intro hxfull
          have h2 := hpend x hx hxfull
          rw [hout] at h2
          simpa using h2
        · intro l hl hlf
          rfl
      · intro hd
        have hd' : p.zlp_dropped = false := hd
        obtain ⟨hchain, hpend⟩ := hz hd'
        constructor
        · show zlpOk (p.wire ++ [f])
          rw [zlpOk, List.chain'_append]
          refine ⟨hchain, List.chain'_singleton _, ?_⟩
          intro x hx y hy
          simp at hy
          subst hy
          intro hxfull
          have h2 := hpend x hx hxfull
          rw [hout] at h2
          simpa using h2
        · intro l hl hlf
          exfalso
          have hl2 : l = f := by
            have hl3 : (p.wire ++ [f]).getLast? = some l := hl
            rw [List.getLast?_concat] at hl3
            injection hl3 with h4
            exact h4.symm
          subst hl2
          exact hfull hlf
      · exact aux_z_reset p hz

theorem aux_z_carry (p q : PipeState) (hw : q.wire = p.wire)
    (hd : q.zlp_dropped = p.zlp_dropped)
    (hnp : isPendingZlp p.outbox = false) (hz : ZlpInv p) : ZlpInv q := by
  intro h
  obtain ⟨hchain, hpend⟩ := hz (hd.symm.trans h)
  refine ⟨hw ▸ hchain, ?_⟩
  intro l hl hlf
  exfalso
  rw [hw] at hl
  have ho := hpend l hl hlf
  rw [ho] at hnp
  simp [isPendingZlp] at hnp

theorem aux_z_overwrite (p q : PipeState) (hw : q.wire = p.wire)
    (hd : q.zlp_dropped = (p.zlp_dropped || isPendingZlp p.outbox))
    (hz : ZlpInv p) : ZlpInv q := by
  intro h
  rw [hd] at h
  have h1 : p.zlp_dropped = false ∧ isPendingZlp p.outbox = false := by simpa using h
  obtain ⟨hchain, hpend⟩ := hz h1.1
  refine ⟨hw ▸ hchain, ?_⟩
  intro l hl hlf
  exfalso
  rw [hw] at hl
  have ho := hpend l hl hlf
  have h2 := h1.2
  rw [ho] at h2
  simp [isPendingZlp] at h2

theorem aux_z_spa (p : PipeState) (f : List Nat) (usb : UsbWrite) (hz : ZlpInv p) :
    ZlpInv (send_packet_assuming_possible p f usb) := by
  unfold send_packet_assuming_possible
  by_cases hc : p.outbox.isSome
  · rw [if_pos hc]
    apply aux_z_msp
    exact aux_z_overwrite p _ (by rfl) (by rfl) hz
  · rw [if_neg hc]
    apply aux_z_msp
    apply aux_z_carry p _ (by rfl) (by rfl) ?_ hz
    rcases hx : p.outbox with _ | g
    · simp [isPendingZlp]
    · exfalso
      rw [hx] at hc
      simp at hc

theorem aux_z_callapp (p : PipeState) (hz : ZlpInv p) : ZlpInv (call_app p) := by
  unfold call_app
  split <;> exact hz

theorem aux_z_prime (p : PipeState) (usb : UsbWrite) (hz : ZlpInv p) :
    ZlpInv (prime_outbox p usb) := by
  unfold prime_outbox
  dsimp only
  split
  · exact hz
  · split
    · exact aux_z_reset _ hz
    · next hob =>
      split
      · exact aux_z_reset _ hz
      · split
        · exact hz
        · apply aux_z_msp
          apply aux_z_carry p _ (by rfl) (by rfl) ?_ hz
          rcases hx : p.outbox with _ | g
          · simp [isPendingZlp]
          · exfalso
            rw [hx] at hob
            simp at hob

theorem aux_z_pipeabort (p : PipeState) (usb : UsbWrite) (hz : ZlpInv p) :
    ZlpInv (pipe_abort p usb) := by
  unfold pipe_abort send_slot_status_ok
  dsimp only
  exact aux_z_spa _ _ _ (aux_z_overwrite p _ (by rfl) (by rfl) hz)

theorem aux_z_transfer (p : PipeState) (usb : UsbWrite) (hz : ZlpInv p) :
    ZlpInv (handle_transfer p usb) := by
  unfold handle_transfer send_empty_datablock
  dsimp only
  repeat' split
  all_goals first
    | exact hz
    | exact aux_z_reset _ hz
    | exact aux_z_spa _ _ _ hz
    | exact aux_z_prime _ _ hz
    | exact aux_z_callapp _ hz

theorem aux_z_dispatch (p : PipeState) (usb : UsbWrite) (hz : ZlpInv p) :
    ZlpInv (dispatch p usb) := by
  unfold dispatch send_atr send_slot_status_ok send_slot_status_error send_parameters
  dsimp only
  repeat' split
  all_goals first
    | exact hz
    | exact aux_z_reset _ hz
    | exact aux_z_pipeabort _ _ hz
    | exact aux_z_spa _ _ _ hz
    | exact aux_z_transfer _ _ hz

theorem aux_z_hp (p : PipeState) (pk : List Nat) (usb : UsbWrite) (hz : ZlpInv p) :
    ZlpInv (handle_packet p pk usb) := by
  unfold handle_packet
  dsimp only
  repeat' split
  all_goals first
    | exact hz
    | exact aux_z_reset _ hz
    | exact aux_z_dispatch _ _ hz

theorem aux_z_step (p : PipeState) (op : Op) (hz : ZlpInv p) : ZlpInv (step p op) := by
  cases op <;>
    unfold step expect_abort poll_app send_wait_extension did_start_processing <;>
    dsimp only <;>
    repeat' split
  all_goals first
    | exact hz
    | exact aux_z_hp _ _ _ hz
    | exact aux_z_pipeabort _ _ hz
    | exact aux_z_prime _ _ hz
    | exact aux_z_spa _ _ _ hz
    | exact aux_z_msp _ _ hz

/-- C8 (amended): maybe_send_packet with a pending frame leaves a
zero-length packet in the outbox after fully writing a maximally sized
frame, clears the outbox after fully writing a shorter one, leaves
everything untouched on WouldBlock, and resets on a partial write or
any other USB error; and on every trace in which no pending
zero-length packet was discarded (zlp_dropped stays false), every
maximally sized frame on the wire is immediately followed by a
zero-length packet, a trailing one having its ZLP still pending.
(The original trace clause fails when a new response overwrites the
pending ZLP.) -/
theorem claim_C8_amended :
    (∀ (p : PipeState) (f : List Nat) (n : Nat), p.outbox = some f →
      (maybe_send_packet p (UsbWrite.ok f.length) =
        { p with
          wire := p.wire ++ [f]
          outbox := if f.length = PACKET_SIZE then some [] else none }) ∧
      (maybe_send_packet p UsbWrite.wouldBlock = p) ∧
      (n ≠ f.length → maybe_send_packet p (UsbWrite.ok n) = reset_state p) ∧
      (maybe_send_packet p UsbWrite.error = reset_state p)) ∧
    (∀ (issuer : Option (List Nat)) (ops : List Op),
      (run (initPipe issuer) ops).zlp_dropped = false →
      zlpOk (run (initPipe issuer) ops).wire ∧
      ∀ l ∈ (run (initPipe issuer) ops).wire.getLast?,
        l.length = PACKET_SIZE → (run (initPipe issuer) ops).outbox = some []) := by
  constructor
  · intro p f n hout
    refine ⟨?_, ?_, ?_, ?_⟩
    · simp [maybe_send_packet, hout]
    · simp [maybe_send_packet, hout]
    · intro hne
      simp only [maybe_send_packet, hout]
      rw [if_neg hne]
    · simp [maybe_send_packet, hout]
  · intro issuer ops
    have main : ∀ (l : List Op) (q : PipeState), ZlpInv q → ZlpInv (run q l) := by
      intro l
      induction l with
      | nil => intro q hq; simpa [run] using hq
      | cons op l ih =>
        intro q hq
        simp only [run, List.foldl_cons]
        have h2 := ih (step q op) (aux_z_step q op hq)
        simpa [run] using h2
    have hinit : ZlpInv (initPipe issuer) := by
      intro hd
      refine ⟨?_, ?_⟩
      · simp [initPipe, zlpOk]
      · intro l hl hlf
        simp [initPipe] at hl
    exact main ops (initPipe issuer) hinit

/-- Counterexample to C8's trace clause as stated: a fully written
64-byte frame is followed on the wire by a 10-byte SlotStatus frame
because the GetSlotStatus response overwrote the pending zero-length
packet. -/
theorem claim_C8_counterexample :
    (run (initPipe none) demoZlpOverwrite).wire.map List.length = [64, 10] ∧
    (run (initPipe none) demoZlpOverwrite).zlp_dropped = true ∧
    ¬ zlpOk (run (initPipe none) demoZlpOverwrite).wire := by
  refine ⟨by decide, by decide, ?_⟩
  intro h
  simp only [zlpOk] at h
  have hw : (run (initPipe none) demoZlpOverwrite).wire
      = [dataBlockRaw 9 Chain.Begins (List.take 54 (List.range 60)),
         slotStatusOkFrame 9] := by decide
  rw [hw] at h
  have h1 := (List.chain'_cons.mp h).1
  have h2 := h1 (by decide)
  exact absurd h2 (by decide)

/-- Witness for C8: WouldBlock leaves a pending frame untouched, and
a PowerOn-only trace satisfies the zero-length-packet rule. -/
theorem claim_C8_witness :
    ((maybe_send_packet { demoReady with outbox := some (slotStatusOkFrame 1) }
        UsbWrite.wouldBlock = { demoReady with outbox := some (slotStatusOkFrame 1) }) ∧
      zlpOk (run (initPipe none)
        [Op.handlePacket [0x62, 0, 0, 0, 0, 0, 7, 0, 0, 0] (UsbWrite.ok 14)]).wire) := by
  constructor
  · exact ((claim_C8_amended.1 { demoReady with outbox := some (slotStatusOkFrame 1) }
      (slotStatusOkFrame 1) 0 (by decide)).2.1)
  · exact ((claim_C8_amended.2 none
      [Op.handlePacket [0x62, 0, 0, 0, 0, 0, 7, 0, 0, 0] (UsbWrite.ok 14)]) (by decide)).1

end Ccid
